import Mathlib

/-!
Verification of the proximity-clustering core of `src/script.js` (a Leaflet
crash-map client).  JavaScript numbers are modelled as real numbers,
non-negative integer counts as naturals, and nullable fields as `Option`.
JavaScript truthiness tests on a numeric coordinate (`!lat`) are modelled as
equality with `0` (`null`/`undefined` become `Option.none` where a field is
nullable); `NaN` has no counterpart in `ℝ` and is outside the model.
-/

open Classical

namespace Webmap

/-- A marker as produced by `createCrashMarker` (script.js 645-693): the
Leaflet layer together with the fields the script stores on it
(`_lat`, `_lng`, `_fatalities`, `_injuries`, `_crashYear`). -/
structure Marker where
  lat : ℝ
  lng : ℝ
  fatalities : ℕ
  injuries : ℕ
  crashYear : Option ℕ
  color : String

instance : Inhabited Marker := ⟨⟨0, 0, 0, 0, none, ""⟩⟩

/-- One entry of a cluster's `crashData` array (script.js 532-535, 562-565):
a record with `fatalities` and `injuries` fields.  The fields are `Option`
so that `getMostSevereCrash`'s `Number(x) || 0` coercion of a missing or
unparseable field (which yields `0`) is representable as `none`. -/
structure Crash where
  fatalities : Option ℕ
  injuries : Option ℕ
deriving DecidableEq

/-- The `{ fatalities, injuries }` object returned by `getMostSevereCrash`. -/
structure Severity where
  fatalities : ℕ
  injuries : ℕ
deriving DecidableEq

/-- The `crashData` entry built from a marker in `clusterMarkers`
(script.js 532-535 and 562-565):
`{ fatalities: marker._fatalities || 0, injuries: marker._injuries || 0 }`.
On the stored natural-number counts `x || 0` is the identity. -/
def crashOf (m : Marker) : Crash := ⟨some m.fatalities, some m.injuries⟩

/-- `getMarkerColor` (script.js 440-455).  In the program every call site
passes the already-coerced non-negative counts, so the arguments are `ℕ`
(`Number(x) || 0` is the identity there). -/
def getMarkerColor (fatalities injuries : ℕ) : String :=
  if 0 < fatalities then "#FF0000"
  else if 0 < injuries then "#FF9800"
  else "#FFEB3B"

/-- The `Number(x) || 0` coercion of one `crashData` record's two fields,
as performed at the top of the loop body of `getMostSevereCrash`
(script.js 476-477). -/
def coerceSeverity (c : Crash) : Severity :=
  ⟨c.fatalities.getD 0, c.injuries.getD 0⟩

/-- The body of the `forEach` loop of `getMostSevereCrash`
(script.js 475-485). -/
def severeStep (best : Severity) (c : Crash) : Severity :=
  let f := c.fatalities.getD 0
  let i := c.injuries.getD 0
  if best.fatalities < f then ⟨f, i⟩
  else if f = best.fatalities ∧ best.injuries < i then ⟨f, i⟩
  else best

/-- `getMostSevereCrash` (script.js 472-488): fold the loop body over the
crash list starting from `{ fatalities: 0, injuries: 0 }`. -/
def getMostSevereCrash (crashes : List Crash) : Severity :=
  crashes.foldl severeStep ⟨0, 0⟩

/-- `Math.atan2` restricted to real arguments (no infinities/NaN),
following the IEEE/ECMAScript quadrant case split. -/
noncomputable def atan2 (y x : ℝ) : ℝ :=
  if 0 < x then Real.arctan (y / x)
  else if x < 0 then
    (if 0 ≤ y then Real.arctan (y / x) + Real.pi
     else Real.arctan (y / x) - Real.pi)
  else if 0 < y then Real.pi / 2
  else if y < 0 then -(Real.pi / 2)
  else 0

/-- `getDistanceInMeters` (script.js 491-500): haversine distance with
Earth radius 6 371 000 m. -/
noncomputable def getDistanceInMeters (lat1 lng1 lat2 lng2 : ℝ) : ℝ :=
  let R : ℝ := 6371000
  let dLat := (lat2 - lat1) * Real.pi / 180
  let dLng := (lng2 - lng1) * Real.pi / 180
  let a := Real.sin (dLat / 2) * Real.sin (dLat / 2) +
      Real.cos (lat1 * Real.pi / 180) * Real.cos (lat2 * Real.pi / 180) *
      Real.sin (dLng / 2) * Real.sin (dLng / 2)
  let c := 2 * atan2 (Real.sqrt a) (Real.sqrt (1 - a))
  R * c

/-- A marker paired with its index in the `markerList` array; the `processed`
set of `clusterMarkers` stores these indices. -/
abbrev IMarker := ℕ × Marker

/-- The test of the inner `forEach` of `clusterMarkers` (script.js 549-567):
`otherIndex !== index`, `!processed.has(otherIndex)`, both coordinates
truthy, and geographic distance at most `distanceMeters`. -/
def canCluster (processed : Finset ℕ) (index : ℕ) (lat1 lng1 t : ℝ)
    (p : IMarker) : Prop :=
  p.1 ≠ index ∧ p.1 ∉ processed ∧ p.2.lat ≠ 0 ∧ p.2.lng ≠ 0 ∧
    getDistanceInMeters lat1 lng1 p.2.lat p.2.lng ≤ t

/-- One iteration of the outer `forEach` of `clusterMarkers`
(script.js 528-572), acting on the state (clusters built so far, processed
index set).  The inner loop is a filter of the whole array because each
`otherIndex` is visited once, so the `processed.add(otherIndex)` calls made
during the scan never affect a later test of the same scan; the state after
the iteration adds the seed index and all absorbed indices. -/
noncomputable def clusterStep (t : ℝ) (all : List IMarker)
    (st : List (List IMarker) × Finset ℕ) (im : IMarker) :
    List (List IMarker) × Finset ℕ :=
  if im.1 ∈ st.2 then st
  else if im.2.lat = 0 ∨ im.2.lng = 0 then
    (st.1 ++ [[im]], insert im.1 st.2)
  else
    (st.1 ++ [im :: all.filter
        (fun p => decide (canCluster st.2 im.1 im.2.lat im.2.lng t p))],
      insert im.1 (st.2 ∪ ((all.filter
        (fun p => decide (canCluster st.2 im.1 im.2.lat im.2.lng t p))).map
          Prod.fst).toFinset))

/-- The full outer loop of `clusterMarkers` over the indexed marker array,
returning the final (clusters, processed) state. -/
noncomputable def clusterFold (markerList : List Marker) (t : ℝ) :
    List (List IMarker) × Finset ℕ :=
  (markerList.enum).foldl (clusterStep t markerList.enum) ([], ∅)

/-- The cluster list produced by the outer loop, with indices retained. -/
noncomputable def clusterMarkersIdx (markerList : List Marker) (t : ℝ) :
    List (List IMarker) :=
  (clusterFold markerList t).1

/-- One element of the array returned by `clusterMarkers`
(`{ markers, crashData }`, script.js 544 and 571). -/
structure Cluster where
  markers : List Marker
  crashData : List Crash

/-- `clusterMarkers` (script.js 522-577).  `crashData` is built in lockstep
with `markers` (seed at 532-535, absorbed markers at 562-565), so each
cluster's `crashData` is the elementwise `crashOf` of its member list. -/
noncomputable def clusterMarkers (markerList : List Marker)
    (distanceMeters : ℝ) : List Cluster :=
  if markerList.isEmpty then []
  else (clusterMarkersIdx markerList distanceMeters).map
    (fun c => ⟨c.map Prod.snd, c.map (fun p => crashOf p.2)⟩)

/-- The fields of the synthetic cluster marker built by
`createClusterMarker` (script.js 580-642) that the spec talks about. -/
structure ClusterMarker where
  centerLat : ℝ
  centerLng : ℝ
  color : String
  count : ℕ
  size : ℕ
  fontSize : ℕ

/-- `createClusterMarker` (script.js 580-642).  The source reads
`marker._lat || fallback` where the fallback re-reads the same coordinate
from the Leaflet layer, so the contribution of each member is its stored
coordinate.  The two sequential `if` statements for the size bands
(613-620) are written as the equivalent nested conditional. -/
noncomputable def createClusterMarker (cluster : Cluster) : ClusterMarker :=
  let totalLat := cluster.markers.foldl (fun acc m => acc + m.lat) 0
  let totalLng := cluster.markers.foldl (fun acc m => acc + m.lng) 0
  let centerLat := totalLat / (cluster.markers.length : ℝ)
  let centerLng := totalLng / (cluster.markers.length : ℝ)
  let mostSevere := getMostSevereCrash cluster.crashData
  let markerColor := getMarkerColor mostSevere.fatalities mostSevere.injuries
  let count := cluster.markers.length
  let size := if 99 < count then 40 else if 9 < count then 35 else 30
  let fontSize := if 99 < count then 10 else if 9 < count then 11 else 12
  ⟨centerLat, centerLng, markerColor, count, size, fontSize⟩

/-- The `properties` object of one GeoJSON feature, restricted to the
fields `createCrashMarker` and `updateMarkersByYear` read.  A `none`
models a missing (`null`/`undefined`) field. -/
structure CrashProps where
  TSCrashLat : Option ℝ
  TSCrashLon : Option ℝ
  INJURIES : Option ℕ
  FATALITIES : Option ℕ
  YEAR : Option ℕ

/-- `extractYear` (script.js 458-469): falsy input (missing or `0`) gives
`null`; a value whose decimal string has exactly two digits is mapped to
`2000 +` itself; anything else is returned unchanged. -/
def extractYear (yearValue : Option ℕ) : Option ℕ :=
  match yearValue with
  | none => none
  | some n =>
    if n = 0 then none
    else if (toString n).length = 2 then some (2000 + n)
    else some n

/-- `createCrashMarker` (script.js 645-693): if either coordinate is falsy
(missing or exactly `0`) the function returns `null`; otherwise it builds a
marker storing the coordinates, the `|| 0`-coerced severity counts, and the
extracted year. -/
noncomputable def createCrashMarker (props : CrashProps) : Option Marker :=
  if props.TSCrashLat = none ∨ props.TSCrashLat = some 0 ∨
      props.TSCrashLon = none ∨ props.TSCrashLon = some 0 then none
  else some
    { lat := props.TSCrashLat.getD 0
      lng := props.TSCrashLon.getD 0
      fatalities := props.FATALITIES.getD 0
      injuries := props.INJURIES.getD 0
      crashYear := extractYear props.YEAR
      color := getMarkerColor (props.FATALITIES.getD 0) (props.INJURIES.getD 0) }

/-- One entry of the display list built by `updateMarkersByYear`: either a
synthetic cluster marker (for a cluster of 2 or more) or the cluster's
single original marker. -/
inductive Displayed where
  | clusterM : ClusterMarker → Displayed
  | single : Marker → Displayed

/-- The body of the record loop of `updateMarkersByYear`
(script.js 709-725): a marker is produced only when the record's year is
truthy and selected and `createCrashMarker` does not return `null`. -/
noncomputable def markerForProps (selectedYears : List ℕ)
    (props : CrashProps) : Option Marker :=
  match extractYear props.YEAR with
  | some y => if y ∈ selectedYears then createCrashMarker props else none
  | none => none

/-- The marker-building part of `updateMarkersByYear` (script.js 709-753):
filter the records by selected year, build a marker for each (dropping the
`null` results of `createCrashMarker`), cluster with a 50 m threshold, and
display each cluster as one entry (a cluster marker when it has more than
one member, otherwise the member itself, `cluster.markers[0]`). -/
noncomputable def updateMarkersByYear (allCrashData : List CrashProps)
    (selectedYears : List ℕ) : List Displayed :=
  let allMarkers := allCrashData.filterMap (markerForProps selectedYears)
  (clusterMarkers allMarkers 50).map (fun c =>
    if 1 < c.markers.length then .clusterM (createClusterMarker c)
    else .single c.markers.headI)

/-- The lexicographic severity order of spec §3: fatalities dominant,
ties broken by injuries. -/
def sevLE (a b : Severity) : Prop :=
  a.fatalities < b.fatalities ∨
    (a.fatalities = b.fatalities ∧ a.injuries ≤ b.injuries)

/-- The color policy exactly as the spec states it (§4.1): fatalities > 0 →
red, else injuries > 0 → orange, else yellow. -/
def specColorPolicy (s : Severity) : String :=
  if 0 < s.fatalities then "#FF0000"
  else if 0 < s.injuries then "#FF9800"
  else "#FFEB3B"

lemma sevLE_refl (a : Severity) : sevLE a a := Or.inr ⟨rfl, le_refl _⟩

lemma sevLE_trans {a b c : Severity} (h1 : sevLE a b) (h2 : sevLE b c) :
    sevLE a c := by
  rcases h1 with h1 | ⟨e1, i1⟩ <;> rcases h2 with h2 | ⟨e2, i2⟩
  · exact Or.inl (h1.trans h2)
  · exact Or.inl (e2 ▸ h1)
  · exact Or.inl (e1 ▸ h2)
  · exact Or.inr ⟨e1.trans e2, i1.trans i2⟩

lemma sevLE_severeStep (best : Severity) (c : Crash) :
    sevLE best (severeStep best c) := by
  simp only [severeStep]
  by_cases h1 : best.fatalities < c.fatalities.getD 0
  · rw [if_pos h1]
    exact Or.inl h1
  · rw [if_neg h1]
    by_cases h2 : c.fatalities.getD 0 = best.fatalities ∧
        best.injuries < c.injuries.getD 0
    · rw [if_pos h2]
      exact Or.inr ⟨h2.1.symm, le_of_lt h2.2⟩
    · rw [if_neg h2]
      exact sevLE_refl best

lemma coerce_sevLE_severeStep (best : Severity) (c : Crash) :
    sevLE (coerceSeverity c) (severeStep best c) := by
  simp only [severeStep, coerceSeverity]
  by_cases h1 : best.fatalities < c.fatalities.getD 0
  · rw [if_pos h1]
    exact sevLE_refl _
  · rw [if_neg h1]
    by_cases h2 : c.fatalities.getD 0 = best.fatalities ∧
        best.injuries < c.injuries.getD 0
    · rw [if_pos h2]
      exact sevLE_refl _
    · rw [if_neg h2]
      rcases lt_or_eq_of_le (not_lt.mp h1) with hlt | heq
      · exact Or.inl hlt
      · refine Or.inr ⟨heq, ?_⟩
        exact not_lt.mp (not_and.mp h2 heq)

lemma severeStep_eq_or (best : Severity) (c : Crash) :
    severeStep best c = best ∨ severeStep best c = coerceSeverity c := by
  simp only [severeStep, coerceSeverity]
  by_cases h1 : best.fatalities < c.fatalities.getD 0
  · rw [if_pos h1]
    exact Or.inr rfl
  · rw [if_neg h1]
    by_cases h2 : c.fatalities.getD 0 = best.fatalities ∧
        best.injuries < c.injuries.getD 0
    · rw [if_pos h2]
      exact Or.inr rfl
    · rw [if_neg h2]
      exact Or.inl rfl

lemma severeFoldl_spec (crashes : List Crash) :
    ∀ acc : Severity,
      sevLE acc (crashes.foldl severeStep acc) ∧
      (∀ c ∈ crashes, sevLE (coerceSeverity c) (crashes.foldl severeStep acc)) ∧
      (crashes.foldl severeStep acc = acc ∨
        ∃ c ∈ crashes, crashes.foldl severeStep acc = coerceSeverity c) := by
  induction crashes with
  | nil =>
    intro acc
    exact ⟨sevLE_refl _, by simp, Or.inl rfl⟩
  | cons c cs ih =>
    intro acc
    obtain ⟨h1, h2, h3⟩ := ih (severeStep acc c)
    rw [List.foldl_cons]
    refine ⟨sevLE_trans (sevLE_severeStep acc c) h1, ?_, ?_⟩
    · intro d hd
      rcases List.mem_cons.mp hd with hdc | hd
      · subst hdc
        exact sevLE_trans (coerce_sevLE_severeStep acc d) h1
      · exact h2 d hd
    · rcases h3 with h3 | ⟨d, hd, h⟩
      · rcases severeStep_eq_or acc c with he | he
        · exact Or.inl (by rw [h3, he])
        · exact Or.inr ⟨c, List.mem_cons_self c cs, by rw [h3, he]⟩
      · exact Or.inr ⟨d, List.mem_cons_of_mem _ hd, h⟩

/-- C5: `getMostSevereCrash` is the running maximum of the coerced member
severities under the lexicographic order with fatalities dominant, started
from the accumulator (0,0): the result is lexicographically at least every
member's severity, and it is either (0,0) (in particular for clusters with
no recorded severity information) or the exact severity pair of some
member. -/
theorem getMostSevereCrash_runningMax (crashes : List Crash) :
    (∀ c ∈ crashes, sevLE (coerceSeverity c) (getMostSevereCrash crashes)) ∧
    (getMostSevereCrash crashes = ⟨0, 0⟩ ∨
      ∃ c ∈ crashes, getMostSevereCrash crashes = coerceSeverity c) := by
  obtain ⟨_, h2, h3⟩ := severeFoldl_spec crashes ⟨0, 0⟩
  exact ⟨h2, h3⟩

/-- Witness for C5, at a concrete two-element crash list. -/
theorem getMostSevereCrash_runningMax_witness :
    (∀ c ∈ [Crash.mk (some 1) (some 2), Crash.mk (some 1) (some 3)],
      sevLE (coerceSeverity c)
        (getMostSevereCrash [Crash.mk (some 1) (some 2), Crash.mk (some 1) (some 3)])) ∧
    (getMostSevereCrash [Crash.mk (some 1) (some 2), Crash.mk (some 1) (some 3)] = ⟨0, 0⟩ ∨
      ∃ c ∈ [Crash.mk (some 1) (some 2), Crash.mk (some 1) (some 3)],
        getMostSevereCrash [Crash.mk (some 1) (some 2), Crash.mk (some 1) (some 3)] =
          coerceSeverity c) :=
  getMostSevereCrash_runningMax _

/-- C10: whenever some member's coerced severity differs from (0,0), the
pair reported by `getMostSevereCrash` is the exact (fatalities, injuries)
pair of a single member — never a cross-member combination such as a
per-field maximum. -/
theorem getMostSevereCrash_is_single_member (crashes : List Crash)
    (h : ∃ c ∈ crashes, coerceSeverity c ≠ ⟨0, 0⟩) :
    ∃ c ∈ crashes, getMostSevereCrash crashes = coerceSeverity c := by
  obtain ⟨_, h2, h3⟩ := severeFoldl_spec crashes ⟨0, 0⟩
  rcases h3 with h3 | hm
  · obtain ⟨c, hc, hne⟩ := h
    exfalso
    apply hne
    have hle := h2 c hc
    rw [h3] at hle
    rcases hle with hlt | ⟨hf, hi⟩
    · exact absurd hlt (Nat.not_lt_zero _)
    · cases hc' : coerceSeverity c with
      | mk f i =>
        rw [hc'] at hf hi
        simp only at hf hi
        rw [Nat.le_zero] at hi
        rw [hf, hi]
  · exact hm

/-- Witness for C10, at a concrete one-element crash list. -/
theorem getMostSevereCrash_is_single_member_witness :
    ∃ c ∈ [Crash.mk (some 1) none],
      getMostSevereCrash [Crash.mk (some 1) none] = coerceSeverity c :=
  getMostSevereCrash_is_single_member _
    ⟨Crash.mk (some 1) none, by simp, by decide⟩

/-- C6: the marker color is the deterministic function of the (reduced)
severity stated by the spec — fatalities > 0 → red, else injuries > 0 →
orange, else yellow — applied uniformly: singleton markers built by
`createCrashMarker` and cluster aggregates built by `createClusterMarker`
both color with this policy; and the concrete scenario: a cluster with
member severities (0,2) and (1,0) reduces to (1,0) and is colored red. -/
theorem getMarkerColor_policy :
    (∀ s : Severity, getMarkerColor s.fatalities s.injuries = specColorPolicy s) ∧
    (∀ cluster : Cluster, (createClusterMarker cluster).color =
      specColorPolicy (getMostSevereCrash cluster.crashData)) ∧
    (∀ (props : CrashProps) (m : Marker), createCrashMarker props = some m →
      m.color = specColorPolicy ⟨m.fatalities, m.injuries⟩) ∧
    (getMostSevereCrash [Crash.mk (some 0) (some 2), Crash.mk (some 1) (some 0)] =
      ⟨1, 0⟩) ∧
    specColorPolicy ⟨1, 0⟩ = "#FF0000" := by
  refine ⟨fun s => rfl, fun cluster => rfl, ?_, by decide, by decide⟩
  intro props m hm
  rw [createCrashMarker] at hm
  by_cases hcond : props.TSCrashLat = none ∨ props.TSCrashLat = some 0 ∨
      props.TSCrashLon = none ∨ props.TSCrashLon = some 0
  · rw [if_pos hcond] at hm
    exact absurd hm (by simp)
  · rw [if_neg hcond] at hm
    have := Option.some.inj hm
    rw [← this]
    rfl

/-- Witness for C6, instantiating the policy equation at severity (1,0). -/
theorem getMarkerColor_policy_witness :
    getMarkerColor (Severity.mk 1 0).fatalities (Severity.mk 1 0).injuries =
      specColorPolicy ⟨1, 0⟩ :=
  getMarkerColor_policy.1 ⟨1, 0⟩

lemma clusterStep_skip {t : ℝ} {all : List IMarker}
    {st : List (List IMarker) × Finset ℕ} {im : IMarker} (h : im.1 ∈ st.2) :
    clusterStep t all st im = st := by
  rw [clusterStep, if_pos h]

lemma clusterStep_invalid {t : ℝ} {all : List IMarker}
    {st : List (List IMarker) × Finset ℕ} {im : IMarker} (h1 : im.1 ∉ st.2)
    (h2 : im.2.lat = 0 ∨ im.2.lng = 0) :
    clusterStep t all st im = (st.1 ++ [[im]], insert im.1 st.2) := by
  rw [clusterStep, if_neg h1, if_pos h2]

lemma clusterStep_valid {t : ℝ} {all : List IMarker}
    {st : List (List IMarker) × Finset ℕ} {im : IMarker} (h1 : im.1 ∉ st.2)
    (h2 : ¬(im.2.lat = 0 ∨ im.2.lng = 0)) :
    clusterStep t all st im =
      (st.1 ++ [im :: all.filter
          (fun p => decide (canCluster st.2 im.1 im.2.lat im.2.lng t p))],
        insert im.1 (st.2 ∪ ((all.filter
          (fun p => decide (canCluster st.2 im.1 im.2.lat im.2.lng t p))).map
            Prod.fst).toFinset)) := by
  rw [clusterStep, if_neg h1, if_neg h2]

/-- Invariant of the outer loop of `clusterMarkers`: `all` is the indexed
input array, `rest` its not-yet-visited suffix, and `st` the current
(clusters, processed) state.  The clusters' member indices are exactly the
processed set with no repetition, every cluster is its seed followed by
members within threshold of that seed (with strictly larger indices, and
none if the seed's coordinates are falsy), cluster order follows seed
index order, and everything not yet processed is still to be visited. -/
structure StepInv (all : List IMarker) (t : ℝ) (rest : List IMarker)
    (st : List (List IMarker) × Finset ℕ) : Prop where
  mem_all : ∀ c ∈ st.1, ∀ p ∈ c, p ∈ all
  nodup : ((st.1.flatten).map Prod.fst).Nodup
  processed_eq : st.2 = ((st.1.flatten).map Prod.fst).toFinset
  shape : ∀ c ∈ st.1, ∃ s r, c = s :: r ∧
      (∀ p ∈ r, p.2.lat ≠ 0 ∧ p.2.lng ≠ 0 ∧
        getDistanceInMeters s.2.lat s.2.lng p.2.lat p.2.lng ≤ t ∧ s.1 < p.1) ∧
      ((s.2.lat = 0 ∨ s.2.lng = 0) → r = [])
  heads : List.Pairwise (fun c d => ∀ s ∈ c.head?, ∀ u ∈ d.head?,
      Prod.fst (α := ℕ) (β := Marker) s < Prod.fst u) st.1
  seeds_rest : ∀ c ∈ st.1, ∀ s ∈ c.head?, ∀ p ∈ rest,
      Prod.fst (α := ℕ) (β := Marker) s < p.1
  cover : ∀ p ∈ all, p.1 ∉ st.2 → p.1 ∈ rest.map Prod.fst

lemma stepInv_preserved {all : List IMarker} {t : ℝ} {im : IMarker}
    {rest : List IMarker} {st : List (List IMarker) × Finset ℕ}
    (hall : (all.map Prod.fst).Nodup)
    (hsort : (im :: rest).Pairwise (fun p q : IMarker => p.1 < q.1))
    (hsub : ∀ p ∈ im :: rest, p ∈ all)
    (hinv : StepInv all t (im :: rest) st) :
    StepInv all t rest (clusterStep t all st im) := by
  obtain ⟨hmem, hnodup, hproc, hshape, hheads, hseeds, hcover⟩ := hinv
  have him_all : im ∈ all := hsub im (List.mem_cons_self _ _)
  have hsort_head : ∀ p ∈ rest, im.1 < p.1 := (List.pairwise_cons.mp hsort).1
  by_cases hP : im.1 ∈ st.2
  · rw [clusterStep_skip hP]
    refine ⟨hmem, hnodup, hproc, hshape, hheads, ?_, ?_⟩
    · exact fun c hc s hs p hp => hseeds c hc s hs p (List.mem_cons_of_mem _ hp)
    · intro p hp hpn
      have hmem' := hcover p hp hpn
      rw [List.map_cons] at hmem'
      rcases List.mem_cons.mp hmem' with he | hin
      · exact absurd (he ▸ hP) hpn
      · exact hin
  · have him_notJ : im.1 ∉ (st.1.flatten.map Prod.fst) := by
      intro hmemJ
      exact hP (hproc.symm ▸ List.mem_toFinset.mpr hmemJ)
    by_cases hz : im.2.lat = 0 ∨ im.2.lng = 0
    · rw [clusterStep_invalid hP hz]
      have hflat : ((st.1 ++ [[im]]).flatten) = st.1.flatten ++ [im] := by simp
      refine ⟨?_, ?_, ?_, ?_, ?_, ?_, ?_⟩
      · intro c hc p hp
        rcases List.mem_append.mp hc with hc | hc
        · exact hmem c hc p hp
        · rw [List.mem_singleton.mp hc] at hp
          rw [List.mem_singleton.mp hp]
          exact him_all
      · rw [hflat, List.map_append]
        rw [List.nodup_append]
        exact ⟨hnodup, List.nodup_singleton _,
          fun x hx hx' => him_notJ ((List.mem_singleton.mp hx') ▸ hx)⟩
      · rw [hflat, List.map_append, hproc]
        ext x
        simp only [Finset.mem_insert, List.mem_toFinset, List.mem_append,
          List.map_cons, List.map_nil, List.mem_singleton, List.mem_cons,
          List.not_mem_nil, or_false]
        tauto
      · intro c hc
        rcases List.mem_append.mp hc with hc | hc
        · exact hshape c hc
        · exact ⟨im, [], List.mem_singleton.mp hc, by simp, fun _ => rfl⟩
      · rw [List.pairwise_append]
        refine ⟨hheads, List.pairwise_singleton _ _, ?_⟩
        intro c hc d hd s hs u hu
        rw [List.mem_singleton.mp hd] at hu
        simp only [List.head?_cons, Option.mem_def, Option.some.injEq] at hu
        rw [← hu]
        exact hseeds c hc s hs im (List.mem_cons_self _ _)
      · intro c hc s hs p hp
        rcases List.mem_append.mp hc with hc | hc
        · exact hseeds c hc s hs p (List.mem_cons_of_mem _ hp)
        · rw [List.mem_singleton.mp hc] at hs
          simp only [List.head?_cons, Option.mem_def, Option.some.injEq] at hs
          rw [← hs]
          exact hsort_head p hp
      · intro p hp hpn
        simp only [Finset.mem_insert, not_or] at hpn
        have hmem' := hcover p hp hpn.2
        rw [List.map_cons] at hmem'
        rcases List.mem_cons.mp hmem' with he | hin
        · exact absurd he hpn.1
        · exact hin
    · rw [clusterStep_valid hP hz]
      set O := all.filter
        (fun p => decide (canCluster st.2 im.1 im.2.lat im.2.lng t p)) with hO
      have hO_mem : ∀ p, p ∈ O ↔ p ∈ all ∧
          canCluster st.2 im.1 im.2.lat im.2.lng t p := by
        intro p
        rw [hO, List.mem_filter, decide_eq_true_eq]
      have hO_nodup : (O.map Prod.fst).Nodup :=
        List.Nodup.sublist (List.Sublist.map Prod.fst (List.filter_sublist all)) hall
      have hO_gt : ∀ p ∈ O, im.1 < p.1 := by
        intro p hp
        obtain ⟨hpall, hne, hnp, _⟩ := (hO_mem p).mp hp
        have hmem' := hcover p hpall hnp
        rw [List.map_cons] at hmem'
        rcases List.mem_cons.mp hmem' with he | hin
        · exact absurd he hne
        · obtain ⟨q, hq, hq'⟩ := List.mem_map.mp hin
          exact hq' ▸ hsort_head q hq
      have hO_notP : ∀ x ∈ O.map Prod.fst, x ∉ st.2 := by
        intro x hx
        obtain ⟨q, hq, hq'⟩ := List.mem_map.mp hx
        exact hq' ▸ ((hO_mem q).mp hq).2.2.1
      have hflat : ((st.1 ++ [im :: O]).flatten) = st.1.flatten ++ (im :: O) := by
        simp
      refine ⟨?_, ?_, ?_, ?_, ?_, ?_, ?_⟩
      · intro c hc p hp
        rcases List.mem_append.mp hc with hc | hc
        · exact hmem c hc p hp
        · rw [List.mem_singleton.mp hc] at hp
          rcases List.mem_cons.mp hp with he | hp
          · exact he ▸ him_all
          · exact ((hO_mem p).mp hp).1
      · rw [hflat, List.map_append]
        rw [List.nodup_append]
        refine ⟨hnodup, ?_, ?_⟩
        · rw [List.map_cons, List.nodup_cons]
          refine ⟨?_, hO_nodup⟩
          intro hmemO
          obtain ⟨q, hq, hq'⟩ := List.mem_map.mp hmemO
          exact ((hO_mem q).mp hq).2.1 hq'
        · intro x hx hx'
          have hxP : x ∈ st.2 := hproc.symm ▸ List.mem_toFinset.mpr hx
          rw [List.map_cons] at hx'
          rcases List.mem_cons.mp hx' with he | hin
          · exact hP (he ▸ hxP)
          · exact hO_notP x hin hxP
      · rw [hflat, List.map_append, hproc]
        ext x
        simp only [Finset.mem_insert, Finset.mem_union, List.mem_toFinset,
          List.mem_append, List.map_cons, List.mem_cons]
        tauto
      · intro c hc
        rcases List.mem_append.mp hc with hc | hc
        · exact hshape c hc
        · refine ⟨im, O, List.mem_singleton.mp hc, ?_, fun h0 => absurd h0 hz⟩
          intro p hp
          obtain ⟨_, hcan⟩ := (hO_mem p).mp hp
          exact ⟨hcan.2.2.1, hcan.2.2.2.1, hcan.2.2.2.2, hO_gt p hp⟩
      · rw [List.pairwise_append]
        refine ⟨hheads, List.pairwise_singleton _ _, ?_⟩
        intro c hc d hd s hs u hu
        rw [List.mem_singleton.mp hd] at hu
        simp only [List.head?_cons, Option.mem_def, Option.some.injEq] at hu
        rw [← hu]
        exact hseeds c hc s hs im (List.mem_cons_self _ _)
      · intro c hc s hs p hp
        rcases List.mem_append.mp hc with hc | hc
        · exact hseeds c hc s hs p (List.mem_cons_of_mem _ hp)
        · rw [List.mem_singleton.mp hc] at hs
          simp only [List.head?_cons, Option.mem_def, Option.some.injEq] at hs
          rw [← hs]
          exact hsort_head p hp
      · intro p hp hpn
        simp only [Finset.mem_insert, Finset.mem_union, not_or] at hpn
        have hmem' := hcover p hp hpn.2.1
        rw [List.map_cons] at hmem'
        rcases List.mem_cons.mp hmem' with he | hin
        · exact absurd he hpn.1
        · exact hin

lemma stepInv_foldl {all : List IMarker} {t : ℝ}
    (hall : (all.map Prod.fst).Nodup) :
    ∀ (rest : List IMarker) (st : List (List IMarker) × Finset ℕ),
      rest.Pairwise (fun p q : IMarker => p.1 < q.1) → (∀ p ∈ rest, p ∈ all) →
      StepInv all t rest st →
      StepInv all t [] (rest.foldl (clusterStep t all) st) := by
  intro rest
  induction rest with
  | nil => exact fun st _ _ h => h
  | cons im rest ih =>
    intro st hsort hsub hinv
    rw [List.foldl_cons]
    exact ih _ (List.Pairwise.of_cons hsort)
      (fun p hp => hsub p (List.mem_cons_of_mem _ hp))
      (stepInv_preserved hall hsort hsub hinv)

lemma stepInv_init (all : List IMarker) (t : ℝ) :
    StepInv all t all ([], ∅) := by
  refine ⟨by simp, by simp, by simp, by simp, List.Pairwise.nil, by simp, ?_⟩
  intro p hp _
  exact List.mem_map_of_mem Prod.fst hp

lemma clusterFold_spec (markerList : List Marker) (t : ℝ) :
    StepInv markerList.enum t [] (clusterFold markerList t) := by
  have hall : (markerList.enum.map Prod.fst).Nodup := by
    rw [List.enum_map_fst]
    exact List.nodup_range _
  apply stepInv_foldl hall
  · have h := List.pairwise_lt_range markerList.length
    rw [← List.enum_map_fst markerList] at h
    exact (List.pairwise_map).mp h
  · exact fun p hp => hp
  · exact stepInv_init _ _

lemma enum_nodup (markerList : List Marker) : (markerList.enum).Nodup :=
  List.Nodup.of_map Prod.fst
    ((List.enum_map_fst markerList) ▸ List.nodup_range markerList.length)

lemma clusterFold_flatten_perm (markerList : List Marker) (t : ℝ) :
    ((clusterFold markerList t).1.flatten).Perm markerList.enum := by
  have h := clusterFold_spec markerList t
  have hsubJ : (clusterFold markerList t).1.flatten ⊆ markerList.enum := by
    intro p hp
    obtain ⟨c, hc, hpc⟩ := List.mem_flatten.mp hp
    exact h.mem_all c hc p hpc
  have hnodupJ : ((clusterFold markerList t).1.flatten).Nodup :=
    List.Nodup.of_map Prod.fst h.nodup
  have hsubA : markerList.enum ⊆ (clusterFold markerList t).1.flatten := by
    intro p hp
    have hidx : p.1 ∈ (clusterFold markerList t).2 := by
      by_contra hn
      have := h.cover p hp hn
      simp at this
    rw [h.processed_eq, List.mem_toFinset] at hidx
    obtain ⟨q, hq, hqp⟩ := List.mem_map.mp hidx
    have hq_all : q ∈ markerList.enum := hsubJ hq
    have hqe : q = p := List.inj_on_of_nodup_map
      ((List.enum_map_fst markerList) ▸ List.nodup_range markerList.length)
      hq_all hp hqp
    exact hqe ▸ hq
  exact (List.subperm_of_subset hnodupJ hsubJ).antisymm
    (List.subperm_of_subset (enum_nodup markerList) hsubA)

/-- C1: `clusterMarkers` partitions its input — concatenating the member
lists of all produced clusters yields a permutation of the input marker
list, so every input marker appears in exactly one cluster's member list,
none is omitted, and none is duplicated (across clusters or within one,
counting multiplicity). -/
theorem clusterMarkers_partition (markerList : List Marker) (t : ℝ) :
    (((clusterMarkers markerList t).map Cluster.markers).flatten).Perm
      markerList := by
  by_cases hE : markerList.isEmpty
  · rw [clusterMarkers, if_pos hE]
    rw [List.isEmpty_iff.mp hE]
    exact List.Perm.refl _
  · rw [clusterMarkers, if_neg hE]
    have hperm := clusterFold_flatten_perm markerList t
    have hmaps : (((clusterMarkersIdx markerList t).map
        (fun c => (⟨c.map Prod.snd, c.map (fun p => crashOf p.2)⟩ : Cluster))).map
          Cluster.markers) =
        (clusterMarkersIdx markerList t).map (fun c => c.map Prod.snd) := by
      rw [List.map_map]
      rfl
    rw [hmaps]
    have hflat : ((clusterMarkersIdx markerList t).map
        (fun c => c.map Prod.snd)).flatten =
        ((clusterMarkersIdx markerList t).flatten).map Prod.snd := by
      rw [List.map_flatten]
    rw [hflat]
    have := hperm.map Prod.snd
    rwa [List.enum_map_snd] at this

/-- C3: membership in a cluster is determined only by distance to the
cluster's seed (its first member): every cluster returned by
`clusterMarkers` is a seed followed by members each of whose haversine
distance to the seed is at most the threshold; hence a point farther than
the threshold from the seed is never added to that cluster, regardless of
its distance to members added later (one-level grouping, not transitive
single-link). -/
theorem clusterMarkers_seed_only (markerList : List Marker) (t : ℝ)
    (c : Cluster) (hc : c ∈ clusterMarkers markerList t) :
    ∃ s r, c.markers = s :: r ∧ ∀ m ∈ r,
      getDistanceInMeters s.lat s.lng m.lat m.lng ≤ t := by
  rw [clusterMarkers] at hc
  by_cases hE : markerList.isEmpty
  · rw [if_pos hE] at hc
    exact absurd hc (List.not_mem_nil c)
  · rw [if_neg hE] at hc
    obtain ⟨ci, hci, hce⟩ := List.mem_map.mp hc
    obtain ⟨s, r, hcr, hprop, _⟩ := (clusterFold_spec markerList t).shape ci hci
    refine ⟨s.2, r.map Prod.snd, ?_, ?_⟩
    · rw [← hce]
      show ci.map Prod.snd = _
      rw [hcr, List.map_cons]
    · intro m hm
      obtain ⟨p, hp, hpe⟩ := List.mem_map.mp hm
      exact hpe ▸ (hprop p hp).2.2.1

lemma clusterMarkersIdx_singleton (m : Marker) (t : ℝ) :
    clusterMarkersIdx [m] t = [[(0, m)]] := by
  have henum : ([m].enum) = [(0, m)] := rfl
  rw [clusterMarkersIdx, clusterFold, henum, List.foldl_cons, List.foldl_nil]
  by_cases hz : m.lat = 0 ∨ m.lng = 0
  · rw [clusterStep_invalid (by simp) hz]
    rfl
  · rw [clusterStep_valid (by simp) hz]
    have hfilt : List.filter
        (fun p => decide (canCluster (∅ : Finset ℕ) 0 m.lat m.lng t p))
        [(0, m)] = [] := by
      simp [canCluster]
    rw [hfilt]
    rfl

lemma clusterMarkers_singleton (m : Marker) (t : ℝ) :
    clusterMarkers [m] t = [⟨[m], [crashOf m]⟩] := by
  rw [clusterMarkers, if_neg (by simp), clusterMarkersIdx_singleton]
  rfl

/-- Witness for C3, at a concrete singleton input. -/
theorem clusterMarkers_seed_only_witness :
    ∃ s r, (Cluster.mk [(⟨0, 0, 0, 0, none, ""⟩ : Marker)]
        [crashOf ⟨0, 0, 0, 0, none, ""⟩]).markers = s :: r ∧
      ∀ m ∈ r, getDistanceInMeters s.lat s.lng m.lat m.lng ≤ 50 :=
  clusterMarkers_seed_only [⟨0, 0, 0, 0, none, ""⟩] 50 _
    (by rw [clusterMarkers_singleton]; exact List.mem_singleton.mpr rfl)

/-- C8: clustering is deterministic — equal inputs (same order, same
threshold) give identical groupings in the same output order — and the
output order is the order of the first-seen member: the seed (first
member) indices of the produced clusters are strictly increasing, and each
cluster's seed is its earliest-seen (smallest-index) member. -/
theorem clusterMarkers_deterministic (l1 l2 : List Marker) (t1 t2 : ℝ)
    (hl : l1 = l2) (ht : t1 = t2) :
    clusterMarkers l1 t1 = clusterMarkers l2 t2 ∧
    List.Pairwise (fun c d => ∀ s ∈ c.head?, ∀ u ∈ d.head?,
      Prod.fst (α := ℕ) (β := Marker) s < Prod.fst u)
      (clusterMarkersIdx l1 t1) ∧
    (∀ c ∈ clusterMarkersIdx l1 t1, ∀ s ∈ c.head?, ∀ p ∈ c,
      Prod.fst (α := ℕ) (β := Marker) s ≤ p.1) := by
  subst hl
  subst ht
  refine ⟨rfl, (clusterFold_spec l1 t1).heads, ?_⟩
  intro c hc s hs p hp
  obtain ⟨s', r, hcr, hprop, _⟩ := (clusterFold_spec l1 t1).shape c hc
  rw [hcr] at hs hp
  simp only [List.head?_cons, Option.mem_def, Option.some.injEq] at hs
  rcases List.mem_cons.mp hp with he | hp
  · rw [he, ← hs]
  · exact hs ▸ le_of_lt ((hprop p hp).2.2.2)

/-- Witness for C8, at a concrete singleton input. -/
theorem clusterMarkers_deterministic_witness :
    clusterMarkers [(⟨2, 3, 0, 0, none, ""⟩ : Marker)] 50 =
      clusterMarkers [(⟨2, 3, 0, 0, none, ""⟩ : Marker)] 50 ∧
    List.Pairwise (fun c d => ∀ s ∈ c.head?, ∀ u ∈ d.head?,
      Prod.fst (α := ℕ) (β := Marker) s < Prod.fst u)
      (clusterMarkersIdx [(⟨2, 3, 0, 0, none, ""⟩ : Marker)] 50) ∧
    (∀ c ∈ clusterMarkersIdx [(⟨2, 3, 0, 0, none, ""⟩ : Marker)] 50,
      ∀ s ∈ c.head?, ∀ p ∈ c, Prod.fst (α := ℕ) (β := Marker) s ≤ p.1) :=
  clusterMarkers_deterministic _ _ 50 50 rfl rfl

/-- C9: a coordinate value of exactly `0` is treated as missing (JavaScript
falsiness): `createCrashMarker` returns `null` for a record whose
`TSCrashLat` or `TSCrashLon` is `0`, and `clusterMarkers` puts a marker
whose stored latitude or longitude is `0` in its own singleton cluster. -/
theorem zero_coordinate_handling :
    (∀ props : CrashProps,
      (props.TSCrashLat = some 0 ∨ props.TSCrashLon = some 0) →
      createCrashMarker props = none) ∧
    (∀ (markerList : List Marker) (t : ℝ) (c : Cluster) (m : Marker),
      c ∈ clusterMarkers markerList t → m ∈ c.markers →
      (m.lat = 0 ∨ m.lng = 0) → c.markers = [m]) := by
  constructor
  · intro props h
    rw [createCrashMarker, if_pos (by tauto)]
  · intro markerList t c m hc hm hz
    rw [clusterMarkers] at hc
    by_cases hE : markerList.isEmpty
    · rw [if_pos hE] at hc
      exact absurd hc (List.not_mem_nil c)
    · rw [if_neg hE] at hc
      obtain ⟨ci, hci, hce⟩ := List.mem_map.mp hc
      obtain ⟨s, r, hcr, hprop, hzero⟩ :=
        (clusterFold_spec markerList t).shape ci hci
      have hmarkers : c.markers = s.2 :: r.map Prod.snd := by
        rw [← hce]
        show ci.map Prod.snd = _
        rw [hcr, List.map_cons]
      rw [hmarkers] at hm
      rcases List.mem_cons.mp hm with he | hm
      · have hr : r = [] := hzero (he ▸ hz)
        rw [hmarkers, hr, he]
        rfl
      · obtain ⟨p, hp, hpe⟩ := List.mem_map.mp hm
        have h1 := (hprop p hp).1
        have h2 := (hprop p hp).2.1
        rw [hpe] at h1 h2
        rcases hz with hz | hz
        · exact absurd hz h1
        · exact absurd hz h2

/-- Witness for C9, at a record with latitude exactly 0 and a marker with
stored latitude 0. -/
theorem zero_coordinate_handling_witness :
    createCrashMarker ⟨some 0, some 1, none, none, none⟩ = none ∧
    (Cluster.mk [(⟨0, 1, 0, 0, none, ""⟩ : Marker)]
        [crashOf ⟨0, 1, 0, 0, none, ""⟩]).markers =
      [(⟨0, 1, 0, 0, none, ""⟩ : Marker)] :=
  ⟨zero_coordinate_handling.1 _ (Or.inl rfl),
   zero_coordinate_handling.2 [⟨0, 1, 0, 0, none, ""⟩] 50 _ _
     (by rw [clusterMarkers_singleton]; exact List.mem_singleton.mpr rfl)
     (List.mem_singleton.mpr rfl) (Or.inl rfl)⟩

lemma getDistanceInMeters_self (la ln : ℝ) :
    getDistanceInMeters la ln la ln = 0 := by
  simp [getDistanceInMeters, atan2]

lemma clusterMarkersIdx_pair_merge (s p : Marker) (t : ℝ)
    (hs : ¬(s.lat = 0 ∨ s.lng = 0)) (hp1 : p.lat ≠ 0) (hp2 : p.lng ≠ 0)
    (hd : getDistanceInMeters s.lat s.lng p.lat p.lng ≤ t) :
    clusterMarkersIdx [s, p] t = [[(0, s), (1, p)]] := by
  have henum : ([s, p].enum) = [(0, s), (1, p)] := rfl
  rw [clusterMarkersIdx, clusterFold, henum, List.foldl_cons]
  rw [clusterStep_valid (by simp) hs]
  have hfilt : List.filter
      (fun q => decide (canCluster (∅ : Finset ℕ) 0 s.lat s.lng t q))
      [(0, s), (1, p)] = [(1, p)] := by
    simp [canCluster, hp1, hp2, hd]
  rw [hfilt, List.foldl_cons, List.foldl_nil]
  rw [clusterStep_skip (by simp)]
  rfl

lemma clusterMarkersIdx_pair_split (s p : Marker) (t : ℝ)
    (hs : ¬(s.lat = 0 ∨ s.lng = 0)) (hp : ¬(p.lat = 0 ∨ p.lng = 0))
    (hd : ¬ getDistanceInMeters s.lat s.lng p.lat p.lng ≤ t) :
    clusterMarkersIdx [s, p] t = [[(0, s)], [(1, p)]] := by
  have henum : ([s, p].enum) = [(0, s), (1, p)] := rfl
  rw [clusterMarkersIdx, clusterFold, henum, List.foldl_cons]
  rw [clusterStep_valid (by simp) hs]
  have hfilt1 : List.filter
      (fun q => decide (canCluster (∅ : Finset ℕ) 0 s.lat s.lng t q))
      [(0, s), (1, p)] = [] := by
    simp [canCluster, hd]
  rw [hfilt1, List.foldl_cons, List.foldl_nil]
  rw [clusterStep_valid (by simp) hp]
  have hfilt2 : List.filter
      (fun q => decide (canCluster
        (insert (0, s).1 ((∅ : Finset ℕ) ∪ (([] : List IMarker).map
          Prod.fst).toFinset)) (1, p).1 (1, p).2.lat (1, p).2.lng t q))
      [(0, s), (1, p)] = [] := by
    simp [canCluster]
  rw [hfilt2]
  rfl

lemma clusterMarkers_pair_merge (s p : Marker) (t : ℝ)
    (hs : ¬(s.lat = 0 ∨ s.lng = 0)) (hp1 : p.lat ≠ 0) (hp2 : p.lng ≠ 0)
    (hd : getDistanceInMeters s.lat s.lng p.lat p.lng ≤ t) :
    clusterMarkers [s, p] t = [⟨[s, p], [crashOf s, crashOf p]⟩] := by
  rw [clusterMarkers, if_neg (by simp),
    clusterMarkersIdx_pair_merge s p t hs hp1 hp2 hd]
  rfl

lemma clusterMarkers_pair_split (s p : Marker) (t : ℝ)
    (hs : ¬(s.lat = 0 ∨ s.lng = 0)) (hp : ¬(p.lat = 0 ∨ p.lng = 0))
    (hd : ¬ getDistanceInMeters s.lat s.lng p.lat p.lng ≤ t) :
    clusterMarkers [s, p] t = [⟨[s], [crashOf s]⟩, ⟨[p], [crashOf p]⟩] := by
  rw [clusterMarkers, if_neg (by simp),
    clusterMarkersIdx_pair_split s p t hs hp hd]
  rfl

/-- C4: the threshold boundary is inclusive.  For any two markers with
valid (non-falsy) coordinates: if the haversine distance from the seed to
the other point is exactly the threshold, the pair is grouped into one
cluster; if it is strictly greater, the two points end up in separate
clusters. -/
theorem clusterMarkers_threshold_boundary (s p : Marker) (t : ℝ)
    (hs1 : s.lat ≠ 0) (hs2 : s.lng ≠ 0) (hp1 : p.lat ≠ 0) (hp2 : p.lng ≠ 0) :
    (getDistanceInMeters s.lat s.lng p.lat p.lng = t →
      clusterMarkers [s, p] t = [⟨[s, p], [crashOf s, crashOf p]⟩]) ∧
    (t < getDistanceInMeters s.lat s.lng p.lat p.lng →
      clusterMarkers [s, p] t = [⟨[s], [crashOf s]⟩, ⟨[p], [crashOf p]⟩]) := by
  have hs : ¬(s.lat = 0 ∨ s.lng = 0) := by tauto
  have hp : ¬(p.lat = 0 ∨ p.lng = 0) := by tauto
  constructor
  · intro hd
    exact clusterMarkers_pair_merge s p t hs hp1 hp2 (le_of_eq hd)
  · intro hd
    exact clusterMarkers_pair_split s p t hs hp (not_le.mpr hd)

/-- Witness for C4: two markers at identical coordinates (distance exactly
0).  With threshold 0 the distance equals the threshold and they merge;
with threshold -1 the distance strictly exceeds the threshold and they
stay separate. -/
theorem clusterMarkers_threshold_boundary_witness :
    clusterMarkers [(⟨1, 1, 0, 0, none, ""⟩ : Marker),
        ⟨1, 1, 0, 1, none, ""⟩] 0 =
      [⟨[⟨1, 1, 0, 0, none, ""⟩, ⟨1, 1, 0, 1, none, ""⟩],
        [crashOf ⟨1, 1, 0, 0, none, ""⟩, crashOf ⟨1, 1, 0, 1, none, ""⟩]⟩] ∧
    clusterMarkers [(⟨1, 1, 0, 0, none, ""⟩ : Marker),
        ⟨1, 1, 0, 1, none, ""⟩] (-1) =
      [⟨[⟨1, 1, 0, 0, none, ""⟩], [crashOf ⟨1, 1, 0, 0, none, ""⟩]⟩,
        ⟨[⟨1, 1, 0, 1, none, ""⟩], [crashOf ⟨1, 1, 0, 1, none, ""⟩]⟩] :=
  ⟨(clusterMarkers_threshold_boundary ⟨1, 1, 0, 0, none, ""⟩
      ⟨1, 1, 0, 1, none, ""⟩ 0 (by norm_num) (by norm_num) (by norm_num)
      (by norm_num)).1
    (by show getDistanceInMeters 1 1 1 1 = 0; exact getDistanceInMeters_self 1 1),
   (clusterMarkers_threshold_boundary ⟨1, 1, 0, 0, none, ""⟩
      ⟨1, 1, 0, 1, none, ""⟩ (-1) (by norm_num) (by norm_num) (by norm_num)
      (by norm_num)).2
    (by show (-1 : ℝ) < getDistanceInMeters 1 1 1 1
        rw [getDistanceInMeters_self]
        norm_num)⟩

lemma foldl_add_eq_sum (f : Marker → ℝ) (markerList : List Marker) :
    ∀ a : ℝ, markerList.foldl (fun acc m => acc + f m) a =
      a + (markerList.map f).sum := by
  induction markerList with
  | nil =>
    intro a
    simp
  | cons m ms ih =>
    intro a
    rw [List.foldl_cons, ih, List.map_cons, List.sum_cons, add_assoc]

/-- C7: for every non-empty cluster, the display coordinate computed by
`createClusterMarker` is the independent arithmetic mean of the member
latitudes and of the member longitudes (no geodesic correction). -/
theorem createClusterMarker_centroid (cluster : Cluster)
    (h : cluster.markers ≠ []) :
    (createClusterMarker cluster).centerLat =
      (cluster.markers.map Marker.lat).sum / (cluster.markers.length : ℝ) ∧
    (createClusterMarker cluster).centerLng =
      (cluster.markers.map Marker.lng).sum / (cluster.markers.length : ℝ) := by
  constructor <;> simp [createClusterMarker, foldl_add_eq_sum]

/-- Witness for C7: the 2-member cluster at (0,0) and (0, 0.001) degrees
has centroid latitude 0 and longitude 0.0005. -/
theorem createClusterMarker_centroid_witness :
    (createClusterMarker ⟨[⟨0, 0, 0, 0, none, ""⟩,
        ⟨0, 0.001, 0, 0, none, ""⟩], []⟩).centerLat = 0 ∧
    (createClusterMarker ⟨[⟨0, 0, 0, 0, none, ""⟩,
        ⟨0, 0.001, 0, 0, none, ""⟩], []⟩).centerLng = 0.0005 := by
  have h := createClusterMarker_centroid
    ⟨[⟨0, 0, 0, 0, none, ""⟩, ⟨0, 0.001, 0, 0, none, ""⟩], []⟩ (by simp)
  constructor
  · rw [h.1]
    norm_num
  · rw [h.2]
    norm_num

lemma markerForProps_none_of_null_coord (sel : List ℕ) (bad : CrashProps)
    (h : bad.TSCrashLat = none ∨ bad.TSCrashLon = none) :
    markerForProps sel bad = none := by
  have h1 : createCrashMarker bad = none := by
    rw [createCrashMarker, if_pos (by tauto)]
  rw [markerForProps]
  cases hy : extractYear bad.YEAR with
  | none => rfl
  | some y => simp [h1]

/-- C2 counterexample: for the concrete input of size 2 below — one valid
record and one record whose `TSCrashLon` is `null` — the displayed output
of `updateMarkersByYear` has 1 entry, not 2: the malformed record is not
isolated into a singleton entry, it is discarded. -/
theorem malformed_record_counterexample :
    (updateMarkersByYear
      [⟨some 1, some 1, some 0, some 0, some 2021⟩,
        ⟨some 1, none, some 0, some 0, some 2021⟩] [2021]).length = 1 ∧
    ([(⟨some 1, some 1, some 0, some 0, some 2021⟩ : CrashProps),
        ⟨some 1, none, some 0, some 0, some 2021⟩] : List CrashProps).length
      = 2 := by
  refine ⟨?_, rfl⟩
  have hy : extractYear (some 2021) = some 2021 := by decide
  have hgood : markerForProps [2021]
      ⟨some 1, some 1, some 0, some 0, some 2021⟩ =
      some ⟨1, 1, 0, 0, some 2021, getMarkerColor 0 0⟩ := by
    rw [markerForProps]
    simp only [hy]
    rw [if_pos (List.mem_singleton.mpr rfl)]
    rw [createCrashMarker, if_neg (by simp)]
    simp [hy]
  have hbad : markerForProps [2021]
      ⟨some 1, none, some 0, some 0, some 2021⟩ = none :=
    markerForProps_none_of_null_coord _ _ (Or.inr rfl)
  rw [updateMarkersByYear]
  simp only [List.filterMap_cons, hgood, hbad, List.filterMap_nil]
  rw [clusterMarkers_singleton]
  rfl

/-- C2 (amended): a record with a missing (`null`) coordinate never aborts
the batch, but it is not isolated into its own singleton output entry
either: `createCrashMarker` returns `null` for it, `updateMarkersByYear`
skips it, and the displayed output is exactly the output for the input
with that record removed (so an input of size N displays the entries of
the remaining N-1 records). -/
theorem malformed_record_dropped (xs ys : List CrashProps) (sel : List ℕ)
    (bad : CrashProps)
    (h : bad.TSCrashLat = none ∨ bad.TSCrashLon = none) :
    createCrashMarker bad = none ∧
    updateMarkersByYear (xs ++ bad :: ys) sel =
      updateMarkersByYear (xs ++ ys) sel := by
  have h1 : createCrashMarker bad = none := by
    rw [createCrashMarker, if_pos (by tauto)]
  refine ⟨h1, ?_⟩
  have hfm : (xs ++ bad :: ys).filterMap (markerForProps sel) =
      (xs ++ ys).filterMap (markerForProps sel) := by
    rw [List.filterMap_append, List.filterMap_append, List.filterMap_cons,
      markerForProps_none_of_null_coord sel bad h]
  rw [updateMarkersByYear, updateMarkersByYear]
  simp only [hfm]

/-- Witness for the amended C2, at a concrete two-record input whose first
record has a `null` longitude. -/
theorem malformed_record_dropped_witness :
    createCrashMarker ⟨some 1, none, some 0, some 0, some 2021⟩ = none ∧
    updateMarkersByYear [⟨some 1, none, some 0, some 0, some 2021⟩,
        ⟨some 1, some 1, some 0, some 0, some 2021⟩] [2021] =
      updateMarkersByYear [⟨some 1, some 1, some 0, some 0, some 2021⟩]
        [2021] :=
  malformed_record_dropped []
    [⟨some 1, some 1, some 0, some 0, some 2021⟩] [2021] _ (Or.inr rfl)

end Webmap
